import Mathlib

/-!
Verification of the kz-dashboard container operations engine.

This file shallowly embeds the `ContainersService` (bulk/cluster action
orchestrator, policy filter, bounded-concurrency executor, container stats
calculator) and the host-stats CPU sampler, and proves the specified
properties about them.  Machine numbers are modelled as `Int`/`Rat`;
asynchronous adapter calls are modelled by explicit outcome environments;
the concurrent executor is modelled by a small-step interleaving relation.
-/

namespace KzDashboard

/-! ## Data model -/

/-- One row of the Docker inventory (`DockerContainerSummary` in the source). -/
structure DockerContainerSummary where
  Id : String
  Names : Option (List String)
  Image : String
  State : String
  Status : String
deriving DecidableEq, Repr

/-- Caller-supplied selection criteria (`BulkActionDto`). -/
structure BulkActionDto where
  ids : Option (List String)
  names : Option (List String)
  includeAll : Option Bool
deriving DecidableEq, Repr

/-- One failure record (`BulkActionFailureDto`). -/
structure BulkActionFailureDto where
  id : String
  name : String
  error : String
deriving DecidableEq, Repr

/-- Result of a bulk action (`BulkActionResultDto`); the source declares
`ok: true` as a literal type. -/
structure BulkActionResultDto where
  ok : Bool
  total : Nat
  succeeded : List String
  failed : List BulkActionFailureDto
deriving DecidableEq, Repr

/-- The action kind `'start' | 'stop' | 'restart'`. -/
inductive BulkAction where
  | start
  | stop
  | restart
deriving DecidableEq, Repr

/-- The hard-coded default protected names. -/
def DEFAULT_PROTECTED_CONTAINERS : List String :=
  ["kz-dashboard-api", "kz-dashboard-web", "docker", "containerd"]

/-- The fixed worker cap of the bulk executor (`BULK_CONCURRENCY`). -/
def BULK_CONCURRENCY : Nat := 5

/-- JavaScript `String.prototype.trim()`: strip leading and trailing
whitespace.  Defined over the character list so it is kernel-executable. -/
def jsTrim (s : String) : String :=
  ⟨((s.data.dropWhile Char.isWhitespace).reverse.dropWhile Char.isWhitespace).reverse⟩

/-- JavaScript `String.prototype.toLowerCase()` (ASCII case mapping), defined
over the character list so it is kernel-executable. -/
def jsToLower (s : String) : String :=
  ⟨s.data.map Char.toLower⟩

/-- `name.replace(/^\//, '')`: drop a single leading slash. -/
def stripLeadingSlash (name : String) : String :=
  match name.data with
  | '/' :: rest => ⟨rest⟩
  | _ => name

/-- `getContainerName`: first raw name with one leading slash stripped,
falling back to the id (`container.Names?.[0]?.replace(/^\//, '') ?? container.Id`). -/
def getContainerName (container : DockerContainerSummary) : String :=
  match container.Names with
  | some (rawName :: _) => stripLeadingSlash rawName
  | _ => container.Id

/-! ## Policy filter (`resolveBulkTargets`)

The protected-name set is process-wide configuration (environment list with a
hard-coded fallback); it is passed here as the explicit parameter `prot`. -/

/-- `resolveBulkTargets`, translated clause by clause from the source:
trim the requested ids, trim+lowercase the requested names, select by
`includeAll`/id/lowercased name, then drop protected names. -/
def resolveBulkTargets (allContainers : List DockerContainerSummary)
    (input : BulkActionDto) (prot : List String) : List DockerContainerSummary :=
  let ids := (input.ids.getD []).map (fun value => jsTrim value)
  let names := (input.names.getD []).map (fun value => jsToLower (jsTrim value))
  let selected := allContainers.filter (fun container =>
    if input.includeAll.getD false then
      true
    else
      let name := jsToLower (getContainerName container)
      ids.contains container.Id || names.contains name)
  selected.filter (fun container =>
    !(prot.contains (jsToLower (getContainerName container))))

/-- Eligibility exactly as claim C2 words it: selected (includeAll, or the
container's id is in `ids` by exact-string comparison, or its lower-cased name
is in the lower-cased `names` set) and the lower-cased name is not protected.
No trimming of the requested ids/names appears in this wording. -/
def claimEligibleC2 (input : BulkActionDto) (prot : List String)
    (container : DockerContainerSummary) : Bool :=
  (input.includeAll.getD false ||
      (input.ids.getD []).contains container.Id ||
      ((input.names.getD []).map jsToLower).contains
        (jsToLower (getContainerName container))) &&
  !(prot.contains (jsToLower (getContainerName container)))

/-- The output claim C2 asserts: the inventory filtered by `claimEligibleC2`. -/
def claimFilterC2 (inv : List DockerContainerSummary) (input : BulkActionDto)
    (prot : List String) : List DockerContainerSummary :=
  inv.filter (claimEligibleC2 input prot)

/-- Eligibility as amended: identical to the claim's wording except that each
requested id is trimmed and each requested name is trimmed before lowercasing. -/
def amendedEligibleC2 (input : BulkActionDto) (prot : List String)
    (container : DockerContainerSummary) : Bool :=
  (input.includeAll.getD false ||
      ((input.ids.getD []).map (fun value => jsTrim value)).contains container.Id ||
      ((input.names.getD []).map (fun value => jsToLower (jsTrim value))).contains
        (jsToLower (getContainerName container))) &&
  !(prot.contains (jsToLower (getContainerName container)))

/-! ## Container stats calculator (`toContainerStatsDto`)

The loosely-typed `DockerStatsSnapshot` payload is modelled as nested
structures of optional fields; counters are `Int` and percentages exact `Rat`. -/

/-- `cpu_stats.cpu_usage` / `precpu_stats.cpu_usage`. -/
structure CpuUsageStats where
  total_usage : Option Int
  percpu_usage : Option (List Int)
deriving DecidableEq, Repr

/-- `cpu_stats` and `precpu_stats` (the source only reads these fields). -/
structure CpuStats where
  cpu_usage : Option CpuUsageStats
  system_cpu_usage : Option Int
  online_cpus : Option Nat
deriving DecidableEq, Repr

/-- `memory_stats`. -/
structure MemoryStats where
  usage : Option Int
  limit : Option Int
deriving DecidableEq, Repr

/-- `pids_stats`. -/
structure PidsStats where
  current : Option Int
deriving DecidableEq, Repr

/-- The raw stats payload (`DockerStatsSnapshot`). -/
structure DockerStatsSnapshot where
  cpu_stats : Option CpuStats
  precpu_stats : Option CpuStats
  memory_stats : Option MemoryStats
  pids_stats : Option PidsStats
deriving DecidableEq, Repr

/-- The derived metrics reading (`ContainerStatsDto`). -/
structure ContainerStatsDto where
  cpuPercent : Rat
  memUsageBytes : Int
  memLimitBytes : Int
  memPercent : Rat
  pids : Option Int
deriving DecidableEq, Repr

/-- `toContainerStatsDto`, translated clause by clause: every `a?.b ?? d`
optional chain becomes `Option.bind`/`getD`, and the two guarded ternaries
become guarded exact-rational formulas. -/
def toContainerStatsDto (stats : DockerStatsSnapshot) : ContainerStatsDto :=
  let cpuUsage := ((stats.cpu_stats.bind (fun s => s.cpu_usage)).bind
    (fun u => u.total_usage)).getD 0
  let prevCpuUsage := ((stats.precpu_stats.bind (fun s => s.cpu_usage)).bind
    (fun u => u.total_usage)).getD 0
  let cpuDelta := cpuUsage - prevCpuUsage
  let systemCpuUsage := (stats.cpu_stats.bind (fun s => s.system_cpu_usage)).getD 0
  let prevSystemCpuUsage := (stats.precpu_stats.bind (fun s => s.system_cpu_usage)).getD 0
  let systemDelta := systemCpuUsage - prevSystemCpuUsage
  let onlineCpus := (stats.cpu_stats.bind (fun s => s.online_cpus)).getD
    ((((stats.cpu_stats.bind (fun s => s.cpu_usage)).bind
      (fun u => u.percpu_usage)).map List.length).getD 1)
  let cpuPercent : Rat :=
    if cpuDelta > 0 ∧ systemDelta > 0 then
      (cpuDelta : Rat) / (systemDelta : Rat) * (onlineCpus : Rat) * 100
    else 0
  let memUsageBytes := (stats.memory_stats.bind (fun m => m.usage)).getD 0
  let memLimitBytes := (stats.memory_stats.bind (fun m => m.limit)).getD 0
  let memPercent : Rat :=
    if memUsageBytes > 0 ∧ memLimitBytes > 0 then
      (memUsageBytes : Rat) / (memLimitBytes : Rat) * 100
    else 0
  { cpuPercent := cpuPercent
    memUsageBytes := memUsageBytes
    memLimitBytes := memLimitBytes
    memPercent := memPercent
    pids := stats.pids_stats.bind (fun p => p.current) }

/-- The CPU percentage exactly as claim C4 words it: deltas of current minus
previous counters with missing counters treated as 0, the online-CPU fallback
chain `online_cpus`, else per-CPU array length, else 1 (first available wins),
and the positive-deltas guard. -/
def claimCpuPercentC4 (stats : DockerStatsSnapshot) : Rat :=
  let cpuDelta : Int :=
    ((stats.cpu_stats.bind (fun s => s.cpu_usage)).bind (fun u => u.total_usage)).getD 0 -
      ((stats.precpu_stats.bind (fun s => s.cpu_usage)).bind (fun u => u.total_usage)).getD 0
  let systemDelta : Int :=
    (stats.cpu_stats.bind (fun s => s.system_cpu_usage)).getD 0 -
      (stats.precpu_stats.bind (fun s => s.system_cpu_usage)).getD 0
  let onlineCpus : Nat :=
    match stats.cpu_stats.bind (fun s => s.online_cpus) with
    | some n => n
    | none =>
      match (stats.cpu_stats.bind (fun s => s.cpu_usage)).bind (fun u => u.percpu_usage) with
      | some arr => arr.length
      | none => 1
  if cpuDelta > 0 ∧ systemDelta > 0 then
    (cpuDelta : Rat) / (systemDelta : Rat) * (onlineCpus : Rat) * 100
  else 0

/-! ## Host CPU percentage sampler (`StatsService.getCpuPercent`) -/

/-- One core's time-category counters (`os.CpuInfo.times`, the five categories
the source reads). -/
structure CpuTimes where
  user : Int
  nice : Int
  sys : Int
  idle : Int
  irq : Int
deriving DecidableEq, Repr

/-- `sumCpuTimes`: accumulate idle and total over all cores, mirroring the
source's loop. -/
def sumCpuTimes (cpus : List CpuTimes) : Int × Int :=
  cpus.foldl
    (fun acc cpu =>
      (acc.1 + cpu.idle,
        acc.2 + (cpu.user + cpu.nice + cpu.sys + cpu.idle + cpu.irq)))
    (0, 0)

/-- The fixed real-time sampling delay in milliseconds
(`setTimeout(resolve, 500)` in the source). -/
def hostCpuSampleDelayMs : Nat := 500

/-- `getCpuPercent` as a function of the two samples taken before and after
the fixed delay.  `Math.round` rounds half toward positive infinity, which is
exactly Mathlib's `round` on `Rat`. -/
def getCpuPercent (first second : List CpuTimes) : Rat :=
  let idleDiff : Int := (sumCpuTimes second).1 - (sumCpuTimes first).1
  let totalDiff : Int := (sumCpuTimes second).2 - (sumCpuTimes first).2
  if totalDiff ≤ 0 then 0
  else
    let cpuPercent : Rat := 100 - (idleDiff : Rat) / (totalDiff : Rat) * 100
    ((round (cpuPercent * 10) : Int) : Rat) / 10

/-! ## Bounded concurrency executor (`runWithConcurrency`)

The source spawns `Math.min(concurrency, items.length)` async workers over a
shared cursor.  JavaScript's event loop interleaves them only at `await`
points; the cursor check, read and increment are one synchronous block, and a
worker's only suspension is `await handler(item)`.  The executor is therefore
modelled as a small-step interleaving relation: a scheduler repeatedly picks
one worker, which either atomically takes the next item (becoming in-flight on
it), finishes its in-flight handler call (appending the item index to the
completion log), or retires when the cursor is exhausted. -/

/-- A worker is at its loop head (`ready`), awaiting a handler call on item
`i` (`running i`), or returned (`done`). -/
inductive WorkerStatus where
  | ready
  | running (i : Nat)
  | done
deriving DecidableEq, Repr

/-- Executor state: the shared cursor, each worker's status, and the log of
completed handler invocations in completion order. -/
structure ExecState where
  cursor : Nat
  workers : List WorkerStatus
  log : List Nat
deriving DecidableEq, Repr

/-- The item index a worker currently holds in flight, if any. -/
def workerItem : WorkerStatus → Option Nat
  | WorkerStatus.running i => some i
  | _ => none

/-- The multiset of item indices whose handler calls are currently in flight. -/
def inFlight (s : ExecState) : List Nat :=
  s.workers.filterMap workerItem

/-- One scheduler step over `N` items. `take` is the synchronous
check/read/increment block of the worker loop, `finish` is the completion of
an awaited handler call, `retire` is the loop exiting once the cursor is
exhausted. -/
inductive ExecStep (N : Nat) : ExecState → ExecState → Prop where
  | take (s : ExecState) (w : Nat)
      (hw : s.workers[w]? = some WorkerStatus.ready) (hc : s.cursor < N) :
      ExecStep N s
        { cursor := s.cursor + 1
          workers := s.workers.set w (WorkerStatus.running s.cursor)
          log := s.log }
  | finish (s : ExecState) (w i : Nat)
      (hw : s.workers[w]? = some (WorkerStatus.running i)) :
      ExecStep N s
        { cursor := s.cursor
          workers := s.workers.set w WorkerStatus.ready
          log := s.log ++ [i] }
  | retire (s : ExecState) (w : Nat)
      (hw : s.workers[w]? = some WorkerStatus.ready) (hc : ¬ s.cursor < N) :
      ExecStep N s
        { cursor := s.cursor
          workers := s.workers.set w WorkerStatus.done
          log := s.log }

/-- Initial state: `Math.min(concurrency, items.length)` workers at their loop
heads, cursor 0, nothing completed. -/
def initState (K N : Nat) : ExecState :=
  { cursor := 0, workers := List.replicate (min K N) WorkerStatus.ready, log := [] }

/-- States reachable by the executor for `N` items under limit `K`. -/
def Reachable (K N : Nat) (s : ExecState) : Prop :=
  Relation.ReflTransGen (ExecStep N) (initState K N) s

/-- `Promise.all(workers)` has resolved: every worker returned. -/
def Terminal (s : ExecState) : Prop :=
  ∀ w ∈ s.workers, w = WorkerStatus.done

instance (s : ExecState) : Decidable (Terminal s) :=
  List.decidableBAll _ s.workers

/-- A completion log the executor can actually produce: the log of some
reachable terminal state. -/
def TerminalRun (K N : Nat) (log : List Nat) : Prop :=
  ∃ s, Reachable K N s ∧ Terminal s ∧ s.log = log

/-! ## Bulk orchestration (`executeBulkAction` and friends)

Adapter calls are abstracted by outcome environments: `listing` is the result
of `docker.listContainers({all: true})`, and `outcome action target` is the
result of `applyContainerAction(target.Id, action)` (its error message being
`error.message`, or `'Unknown error'` for a non-`Error` throw).  The
nondeterministic completion order of the concurrent handlers is the executor
log `log`; `TerminalRun` characterises the logs that can occur. -/

/-- `listContainerSummaries`: a listing failure is absorbed into an empty
inventory (the `catch` returns `[]`). -/
def listContainerSummaries (listing : Except String (List DockerContainerSummary)) :
    List DockerContainerSummary :=
  match listing with
  | Except.ok containers => containers
  | Except.error _ => []

/-- The handler body of `executeBulkAction`, applied at each completed item of
the log: a successful `applyContainerAction` pushes the id onto `succeeded`, a
failure pushes `{id, name, error}` onto `failed`, in completion order. -/
def buildBulkResult (targets : List DockerContainerSummary)
    (outcome : DockerContainerSummary → Except String Unit)
    (log : List Nat) : BulkActionResultDto :=
  { ok := true
    total := targets.length
    succeeded := log.filterMap (fun i =>
      (targets[i]?).bind (fun target =>
        match outcome target with
        | Except.ok _ => some target.Id
        | Except.error _ => none))
    failed := log.filterMap (fun i =>
      (targets[i]?).bind (fun target =>
        match outcome target with
        | Except.ok _ => none
        | Except.error message =>
          some { id := target.Id, name := getContainerName target, error := message })) }

/-- `executeBulkAction`: fetch the inventory (absorbing failure), resolve the
targets through the policy filter, run the bounded executor, and assemble the
report. -/
def executeBulkAction (action : BulkAction)
    (listing : Except String (List DockerContainerSummary))
    (input : BulkActionDto) (prot : List String)
    (outcome : BulkAction → DockerContainerSummary → Except String Unit)
    (log : List Nat) : BulkActionResultDto :=
  let targets := resolveBulkTargets (listContainerSummaries listing) input prot
  buildBulkResult targets (outcome action) log

/-- `bulkStart`. -/
def bulkStart (listing : Except String (List DockerContainerSummary))
    (input : BulkActionDto) (prot : List String)
    (outcome : BulkAction → DockerContainerSummary → Except String Unit)
    (log : List Nat) : BulkActionResultDto :=
  executeBulkAction BulkAction.start listing input prot outcome log

/-- `bulkStop`. -/
def bulkStop (listing : Except String (List DockerContainerSummary))
    (input : BulkActionDto) (prot : List String)
    (outcome : BulkAction → DockerContainerSummary → Except String Unit)
    (log : List Nat) : BulkActionResultDto :=
  executeBulkAction BulkAction.stop listing input prot outcome log

/-- `bulkRestart`. -/
def bulkRestart (listing : Except String (List DockerContainerSummary))
    (input : BulkActionDto) (prot : List String)
    (outcome : BulkAction → DockerContainerSummary → Except String Unit)
    (log : List Nat) : BulkActionResultDto :=
  executeBulkAction BulkAction.restart listing input prot outcome log

/-! ## Single-container actions (`startContainer`/`stopContainer`/`restartContainer`)

The Docker adapter is abstracted as an environment of per-call outcomes; each
service method additionally returns the trace of adapter calls it performed,
so that "the runtime action is not attempted" is a statement about the trace.
`NotFoundException` versus a propagated raw adapter error is modelled by the
two constructors of `ServiceError`. -/

/-- The two caller-distinguishable failure classes of a single-container
action: the service's own `NotFoundException`, or a propagated adapter error. -/
inductive ServiceError where
  | notFound (message : String)
  | upstream (message : String)
deriving DecidableEq, Repr

/-- Per-call outcomes of the Docker adapter (`inspect`, `start`, `stop`,
`restart`); an `error` is any rejection of the underlying control-socket call. -/
structure DockerEnv where
  inspect : String → Except String Unit
  callStart : String → Except String Unit
  callStop : String → Except String Unit
  callRestart : String → Except String Unit

/-- One performed adapter call. -/
inductive AdapterCall where
  | inspect (id : String)
  | callStart (id : String)
  | callStop (id : String)
  | callRestart (id : String)
deriving DecidableEq, Repr

/-- `assertExists`: perform the inspect call; any failure whatsoever is caught
and rethrown as `NotFoundException('Container not found: ' + id)`. -/
def assertExists (env : DockerEnv) (id : String) : Except ServiceError Unit :=
  match env.inspect id with
  | Except.ok _ => Except.ok ()
  | Except.error _ => Except.error (ServiceError.notFound ("Container not found: " ++ id))

/-- Successful return value `{ id, action }`. -/
structure SingleActionResult where
  id : String
  action : BulkAction
deriving DecidableEq, Repr

/-- `startContainer`: assert existence, then `container.start()`; a failure of
the action call itself propagates to the caller. -/
def startContainer (env : DockerEnv) (id : String) :
    Except ServiceError SingleActionResult × List AdapterCall :=
  match assertExists env id with
  | Except.error e => (Except.error e, [AdapterCall.inspect id])
  | Except.ok _ =>
    match env.callStart id with
    | Except.error message =>
      (Except.error (ServiceError.upstream message),
        [AdapterCall.inspect id, AdapterCall.callStart id])
    | Except.ok _ =>
      (Except.ok { id := id, action := BulkAction.start },
        [AdapterCall.inspect id, AdapterCall.callStart id])

/-- `stopContainer`, same shape as `startContainer`. -/
def stopContainer (env : DockerEnv) (id : String) :
    Except ServiceError SingleActionResult × List AdapterCall :=
  match assertExists env id with
  | Except.error e => (Except.error e, [AdapterCall.inspect id])
  | Except.ok _ =>
    match env.callStop id with
    | Except.error message =>
      (Except.error (ServiceError.upstream message),
        [AdapterCall.inspect id, AdapterCall.callStop id])
    | Except.ok _ =>
      (Except.ok { id := id, action := BulkAction.stop },
        [AdapterCall.inspect id, AdapterCall.callStop id])

/-- `restartContainer`, same shape as `startContainer`. -/
def restartContainer (env : DockerEnv) (id : String) :
    Except ServiceError SingleActionResult × List AdapterCall :=
  match assertExists env id with
  | Except.error e => (Except.error e, [AdapterCall.inspect id])
  | Except.ok _ =>
    match env.callRestart id with
    | Except.error message =>
      (Except.error (ServiceError.upstream message),
        [AdapterCall.inspect id, AdapterCall.callRestart id])
    | Except.ok _ =>
      (Except.ok { id := id, action := BulkAction.restart },
        [AdapterCall.inspect id, AdapterCall.callRestart id])

/-! ## Concrete inputs used by counterexamples and witnesses -/

/-- A one-container inventory: id `"x"`, raw name `"/web"`. -/
def invC2 : List DockerContainerSummary :=
  [{ Id := "x", Names := some ["/web"], Image := "img", State := "running",
     Status := "Up 1 minute" }]

/-- A request whose single requested id carries surrounding whitespace. -/
def inputC2 : BulkActionDto :=
  { ids := some [" x"], names := none, includeAll := none }

/-- Adapter environment: the container does not exist, so the inspect call
rejects with the runtime's not-found error. -/
def envNoSuchC : DockerEnv :=
  { inspect := fun _ => Except.error "no such container"
    callStart := fun _ => Except.ok ()
    callStop := fun _ => Except.ok ()
    callRestart := fun _ => Except.ok () }

/-- Adapter environment: the daemon is unreachable, so every control-socket
call (including inspect) rejects with a connection error even though the
container may exist. -/
def envDaemonDownC : DockerEnv :=
  { inspect := fun _ => Except.error "connect ECONNREFUSED /var/run/docker.sock"
    callStart := fun _ => Except.error "connect ECONNREFUSED /var/run/docker.sock"
    callStop := fun _ => Except.error "connect ECONNREFUSED /var/run/docker.sock"
    callRestart := fun _ => Except.error "connect ECONNREFUSED /var/run/docker.sock" }

/-- Adapter environment: inspect succeeds but the action call itself fails. -/
def envActionFailsC : DockerEnv :=
  { inspect := fun _ => Except.ok ()
    callStart := fun _ => Except.error "socket hang up"
    callStop := fun _ => Except.error "socket hang up"
    callRestart := fun _ => Except.error "socket hang up" }

/-- A snapshot with only memory stats: usage 50 MB, limit 100 MB. -/
def statsMem50 : DockerStatsSnapshot :=
  { cpu_stats := none
    precpu_stats := none
    memory_stats := some { usage := some 50000000, limit := some 100000000 }
    pids_stats := none }

/-- The fully-absent snapshot. -/
def statsEmptyC : DockerStatsSnapshot :=
  { cpu_stats := none, precpu_stats := none, memory_stats := none, pids_stats := none }

/-! ## Theorems for the policy filter (claim C2) -/

/-- C2 (counterexample): with the inventory `invC2` (one container of id
`"x"`) and the request `{ids: [" x"]}` the code trims the requested id and
selects the container, while the claim's untrimmed exact-string membership
selects nothing, so `resolveBulkTargets` is not the filter the claim
describes. -/
theorem resolveBulkTargets_ne_claimFilterC2 :
    resolveBulkTargets invC2 inputC2 [] ≠ claimFilterC2 invC2 inputC2 [] := by
  decide

/-- C2 (amended): `resolveBulkTargets` is exactly `List.filter` of the amended
eligibility predicate (the claim's predicate with each requested id trimmed
and each requested name trimmed before lowercasing) over the inventory —
hence each matching container appears exactly once per inventory entry and
the inventory's relative order is preserved. -/
theorem resolveBulkTargets_eq_amended_filter
    (inv : List DockerContainerSummary) (input : BulkActionDto)
    (prot : List String) :
    resolveBulkTargets inv input prot = inv.filter (amendedEligibleC2 input prot) := by
  simp only [resolveBulkTargets, amendedEligibleC2, List.filter_filter]
  apply List.filter_congr
  intro container _
  cases h : input.includeAll.getD false <;>
    simp [amendedEligibleC2, h, Bool.and_comm]

/-! ## Theorems for the stats calculators (claims C4, C8, C9) -/

/-- C4: for every raw snapshot — missing fields and negative deltas included —
the computed `cpuPercent` equals the claim's formula: deltas of current minus
previous counters (missing counters read as 0), online-CPU fallback chain
`online_cpus`, else per-CPU array length, else 1, and value
`(cpuDelta / systemDelta) * onlineCpus * 100` exactly when both deltas are
positive, 0 otherwise; moreover any snapshot with both total-usage counters
equal to 1000 yields `cpuPercent = 0` whatever the other fields are.  The
function is total, so no input raises an error. -/
theorem toContainerStatsDto_cpuPercent_spec :
    (∀ stats : DockerStatsSnapshot,
      (toContainerStatsDto stats).cpuPercent = claimCpuPercentC4 stats) ∧
    (∀ (percpu : Option (List Int)) (sysNow sysPrev : Option Int)
        (cpus : Option Nat) (mem : Option MemoryStats) (pids : Option PidsStats),
      (toContainerStatsDto
        { cpu_stats := some
            { cpu_usage := some { total_usage := some 1000, percpu_usage := percpu }
              system_cpu_usage := sysNow
              online_cpus := cpus }
          precpu_stats := some
            { cpu_usage := some { total_usage := some 1000, percpu_usage := none }
              system_cpu_usage := sysPrev
              online_cpus := none }
          memory_stats := mem
          pids_stats := pids }).cpuPercent = 0) := by
  constructor
  · intro stats
    unfold toContainerStatsDto claimCpuPercentC4
    cases (stats.cpu_stats.bind (fun s => s.cpu_usage)).bind (fun u => u.percpu_usage) <;>
      cases stats.cpu_stats.bind (fun s => s.online_cpus) <;> rfl
  · intro percpu sysNow sysPrev cpus mem pids
    rfl

/-- C8: for every snapshot, `memPercent` is `(usage / limit) * 100` exactly
when both `memUsageBytes` and `memLimitBytes` are positive and 0 otherwise;
in particular `memLimitBytes = 0` forces `memPercent = 0`; and the concrete
snapshot with usage 50_000_000 and limit 100_000_000 yields exactly 50. -/
theorem toContainerStatsDto_memPercent_spec :
    (∀ stats : DockerStatsSnapshot,
      (toContainerStatsDto stats).memPercent =
        if (toContainerStatsDto stats).memUsageBytes > 0 ∧
            (toContainerStatsDto stats).memLimitBytes > 0 then
          ((toContainerStatsDto stats).memUsageBytes : Rat) /
            ((toContainerStatsDto stats).memLimitBytes : Rat) * 100
        else 0) ∧
    (∀ stats : DockerStatsSnapshot,
      (toContainerStatsDto stats).memLimitBytes = 0 →
        (toContainerStatsDto stats).memPercent = 0) ∧
    (toContainerStatsDto statsMem50).memPercent = 50 := by
  have spec : ∀ stats : DockerStatsSnapshot,
      (toContainerStatsDto stats).memPercent =
        if (toContainerStatsDto stats).memUsageBytes > 0 ∧
            (toContainerStatsDto stats).memLimitBytes > 0 then
          ((toContainerStatsDto stats).memUsageBytes : Rat) /
            ((toContainerStatsDto stats).memLimitBytes : Rat) * 100
        else 0 := fun _ => rfl
  refine ⟨spec, fun stats h => ?_, ?_⟩
  · rw [spec, h]
    simp
  · rw [spec]
    norm_num [toContainerStatsDto, statsMem50]

/-- C8 witness: a snapshot with no memory stats has `memLimitBytes = 0` and
therefore `memPercent = 0`. -/
theorem toContainerStatsDto_memPercent_spec_witness :
    (toContainerStatsDto statsEmptyC).memPercent = 0 :=
  toContainerStatsDto_memPercent_spec.2.1 statsEmptyC rfl

/-- C9: for every pair of per-core counter samples the host CPU percentage is
0 when the summed total delta is not positive, and otherwise
`100 - (idleDelta / totalDelta) * 100` rounded to one decimal place
(`Math.round(x * 10) / 10`, half toward positive infinity); the function is
total, so no pair of readings raises an error; and the two samples are taken
around the fixed 500 ms delay. -/
theorem getCpuPercent_spec :
    (∀ first second : List CpuTimes,
      getCpuPercent first second =
        if (sumCpuTimes second).2 - (sumCpuTimes first).2 ≤ 0 then 0
        else
          ((round ((100 -
              (((sumCpuTimes second).1 - (sumCpuTimes first).1 : Int) : Rat) /
                (((sumCpuTimes second).2 - (sumCpuTimes first).2 : Int) : Rat) * 100) *
              10) : Int) : Rat) / 10) ∧
    hostCpuSampleDelayMs = 500 := by
  exact ⟨fun first second => rfl, rfl⟩

/-! ## Theorems for bulk failure absorption and the ok flag (claims C5, C10) -/

/-- C5: a failed inventory listing is absorbed: the orchestrator proceeds with
an empty inventory and returns the normal result
`{ok: true, total: 0, succeeded: [], failed: []}` for every action, request,
protected set, outcome assignment and completion order, instead of
propagating the listing error. -/
theorem executeBulkAction_absorbs_listing_failure (action : BulkAction)
    (e : String) (input : BulkActionDto) (prot : List String)
    (outcome : BulkAction → DockerContainerSummary → Except String Unit)
    (log : List Nat) :
    listContainerSummaries (Except.error e) = [] ∧
    executeBulkAction action (Except.error e) input prot outcome log =
      { ok := true, total := 0, succeeded := [], failed := [] } := by
  refine ⟨rfl, ?_⟩
  simp [executeBulkAction, listContainerSummaries, resolveBulkTargets, buildBulkResult]

/-- C10: every bulk result carries `ok = true` — for every action, every
listing outcome (a failed listing included), every request, every protected
set, every per-target outcome assignment (all targets failing included) and
every completion order — so `ok` never distinguishes a degraded or
fully-failed batch from a successful one. -/
theorem executeBulkAction_ok_always (action : BulkAction)
    (listing : Except String (List DockerContainerSummary))
    (input : BulkActionDto) (prot : List String)
    (outcome : BulkAction → DockerContainerSummary → Except String Unit)
    (log : List Nat) :
    (executeBulkAction action listing input prot outcome log).ok = true := rfl

/-! ## Theorems for single-container actions (claims C6, C7) -/

/-- C6: each single-container action performs the inspect call first; if it
fails (container absent) the action returns the Not-Found condition with the
runtime action never attempted (the adapter trace is only the inspect call),
and if inspect and the action both succeed the result is `{id, action}`. -/
theorem singleAction_inspect_precondition (env : DockerEnv) (id : String) :
    ((env.inspect id).isOk = false →
      startContainer env id =
        (Except.error (ServiceError.notFound ("Container not found: " ++ id)),
          [AdapterCall.inspect id]) ∧
      stopContainer env id =
        (Except.error (ServiceError.notFound ("Container not found: " ++ id)),
          [AdapterCall.inspect id]) ∧
      restartContainer env id =
        (Except.error (ServiceError.notFound ("Container not found: " ++ id)),
          [AdapterCall.inspect id])) ∧
    ((env.inspect id).isOk = true →
      (env.callStart id = Except.ok () →
        startContainer env id =
          (Except.ok { id := id, action := BulkAction.start },
            [AdapterCall.inspect id, AdapterCall.callStart id])) ∧
      (env.callStop id = Except.ok () →
        stopContainer env id =
          (Except.ok { id := id, action := BulkAction.stop },
            [AdapterCall.inspect id, AdapterCall.callStop id])) ∧
      (env.callRestart id = Except.ok () →
        restartContainer env id =
          (Except.ok { id := id, action := BulkAction.restart },
            [AdapterCall.inspect id, AdapterCall.callRestart id]))) := by
  cases h : env.inspect id with
  | error msg =>
    refine ⟨fun _ => ?_, fun habs => ?_⟩
    · exact ⟨by simp [startContainer, assertExists, h],
        by simp [stopContainer, assertExists, h],
        by simp [restartContainer, assertExists, h]⟩
    · simp [Except.isOk, Except.toBool] at habs
  | ok u =>
    refine ⟨fun habs => ?_, fun _ => ?_⟩
    · simp [Except.isOk, Except.toBool] at habs
    · refine ⟨fun hs => ?_, fun hs => ?_, fun hs => ?_⟩
      · simp [startContainer, assertExists, h, hs]
      · simp [stopContainer, assertExists, h, hs]
      · simp [restartContainer, assertExists, h, hs]

/-- C6 witness: against an environment where the container does not exist,
`startContainer` signals Not-Found and performs no runtime action. -/
theorem singleAction_inspect_precondition_witness :
    startContainer envNoSuchC "abc" =
      (Except.error (ServiceError.notFound "Container not found: abc"),
        [AdapterCall.inspect "abc"]) :=
  ((singleAction_inspect_precondition envNoSuchC "abc").1 rfl).1

/-- C7 (counterexample): when the inspect call fails because the daemon is
unreachable — an upstream/control-socket failure, with the container possibly
existing — `startContainer` returns exactly the same Not-Found outcome as
when the container genuinely does not exist, not a gateway-style failure, so
the two conditions are not distinguishable by the caller for this
adapter-error outcome of the inspect call. -/
theorem startContainer_conflates_upstream_inspect_failure :
    (startContainer envDaemonDownC "abc").1 =
      Except.error (ServiceError.notFound "Container not found: abc") ∧
    (startContainer envNoSuchC "abc").1 =
      Except.error (ServiceError.notFound "Container not found: abc") :=
  ⟨rfl, rfl⟩

/-- C7 (amended): an upstream failure of the action call itself (after a
successful inspect) is propagated to the caller as a distinct upstream
failure, while every failure of the inspect precondition call — whether the
container is missing or the control socket failed — is surfaced as the same
Not-Found condition; the caller can therefore distinguish upstream failures
of the action call from Not-Found, but not upstream failures of the inspect
call. -/
theorem upstream_error_propagation (env : DockerEnv) (id : String) :
    (∀ message, env.inspect id = Except.error message →
      (startContainer env id).1 =
          Except.error (ServiceError.notFound ("Container not found: " ++ id)) ∧
      (stopContainer env id).1 =
          Except.error (ServiceError.notFound ("Container not found: " ++ id)) ∧
      (restartContainer env id).1 =
          Except.error (ServiceError.notFound ("Container not found: " ++ id))) ∧
    (env.inspect id = Except.ok () →
      (∀ message, env.callStart id = Except.error message →
        (startContainer env id).1 = Except.error (ServiceError.upstream message)) ∧
      (∀ message, env.callStop id = Except.error message →
        (stopContainer env id).1 = Except.error (ServiceError.upstream message)) ∧
      (∀ message, env.callRestart id = Except.error message →
        (restartContainer env id).1 = Except.error (ServiceError.upstream message))) := by
  constructor
  · intro message h
    exact ⟨by simp [startContainer, assertExists, h],
      by simp [stopContainer, assertExists, h],
      by simp [restartContainer, assertExists, h]⟩
  · intro h
    refine ⟨fun message hm => ?_, fun message hm => ?_, fun message hm => ?_⟩
    · simp [startContainer, assertExists, h, hm]
    · simp [stopContainer, assertExists, h, hm]
    · simp [restartContainer, assertExists, h, hm]

/-- C7 witness: with inspect succeeding and the start call rejecting,
`startContainer` propagates the distinct upstream failure. -/
theorem upstream_error_propagation_witness :
    (startContainer envActionFailsC "abc").1 =
      Except.error (ServiceError.upstream "socket hang up") :=
  ((upstream_error_propagation envActionFailsC "abc").2 rfl).1 "socket hang up" rfl

/-! ## Executor invariant

The invariant ties the completion log and the in-flight items to the cursor:
together they enumerate `range cursor` exactly once each, the cursor never
passes `N`, the worker count is fixed at `min K N`, and a worker can only have
retired once the cursor was exhausted. -/

/-- Counting version of the effect of replacing one worker's status on a
`filterMap` over the worker list. -/
theorem count_filterMap_set {a b : Type} [DecidableEq b] (f : a -> Option b)
    (l : List a) (w : Nat) (x y : a) (hw : l[w]? = some x) (c : b) :
    ((l.set w y).filterMap f).count c + ((f x).toList).count c =
      (l.filterMap f).count c + ((f y).toList).count c := by
  induction l generalizing w with
  | nil => simp at hw
  | cons z t ih =>
    cases w with
    | zero =>
      simp only [List.getElem?_cons_zero, Option.some.injEq] at hw
      subst hw
      simp only [List.set_cons_zero, List.filterMap_cons]
      cases hfz : f z <;> cases hfy : f y <;>
        simp [List.count_cons] <;> omega
    | succ wp =>
      simp only [List.getElem?_cons_succ] at hw
      have hih := ih wp hw
      simp only [List.set_cons_succ, List.filterMap_cons]
      cases hfz : f z <;> simp [List.count_cons] <;> omega

/-- Replacing worker `w`'s status `x` by `y` removes `workerItem x` from and
adds `workerItem y` to the in-flight items, up to permutation. -/
theorem inFlight_set_perm (l : List WorkerStatus) (w : Nat)
    (x y : WorkerStatus) (hw : l[w]? = some x) :
    ((l.set w y).filterMap workerItem ++ (workerItem x).toList).Perm
      (l.filterMap workerItem ++ (workerItem y).toList) := by
  rw [List.perm_iff_count]
  intro c
  rw [List.count_append, List.count_append]
  exact count_filterMap_set workerItem l w x y hw c

/-- The executor invariant. -/
def ExecInv (K N : Nat) (s : ExecState) : Prop :=
  s.workers.length = min K N /\
  s.cursor <= N /\
  (s.log ++ inFlight s).Perm (List.range s.cursor) /\
  (WorkerStatus.done ∈ s.workers -> N <= s.cursor)

/-- Every scheduler step preserves the invariant. -/
theorem execStep_inv {K N : Nat} {s t : ExecState}
    (hstep : ExecStep N s t) (hinv : ExecInv K N s) : ExecInv K N t := by
  obtain ⟨hlen, hcur, hperm, hdone⟩ := hinv
  cases hstep with
  | take w hw hc =>
    refine ⟨by simpa using hlen, hc, ?_, ?_⟩
    · have h1 : ((s.workers.set w (WorkerStatus.running s.cursor)).filterMap
          workerItem).Perm (inFlight s ++ [s.cursor]) := by
        have h := inFlight_set_perm s.workers w WorkerStatus.ready
          (WorkerStatus.running s.cursor) hw
        simpa [workerItem, inFlight] using h
      show (s.log ++ (s.workers.set w (WorkerStatus.running s.cursor)).filterMap
        workerItem).Perm (List.range (s.cursor + 1))
      rw [List.range_succ]
      refine (List.Perm.append_left s.log h1).trans ?_
      rw [← List.append_assoc]
      exact hperm.append_right _
    · intro hmem
      rcases List.mem_or_eq_of_mem_set hmem with hmem2 | habs
      · exact Nat.le_succ_of_le (hdone hmem2)
      · exact absurd habs (by simp)
  | finish w i hw =>
    refine ⟨by simpa using hlen, hcur, ?_, ?_⟩
    · have h1 : ((s.workers.set w WorkerStatus.ready).filterMap workerItem
          ++ [i]).Perm (inFlight s) := by
        have h := inFlight_set_perm s.workers w (WorkerStatus.running i)
          WorkerStatus.ready hw
        simpa [workerItem, inFlight] using h
      show ((s.log ++ [i]) ++ (s.workers.set w WorkerStatus.ready).filterMap
        workerItem).Perm (List.range s.cursor)
      refine List.Perm.trans ?_ hperm
      rw [List.append_assoc]
      refine List.Perm.append_left _ ?_
      refine List.Perm.trans ?_ h1
      simpa using (@List.perm_middle Nat i
        ((s.workers.set w WorkerStatus.ready).filterMap workerItem) []).symm
    · intro hmem
      rcases List.mem_or_eq_of_mem_set hmem with hmem2 | habs
      · exact hdone hmem2
      · exact absurd habs (by simp)
  | retire w hw hc =>
    refine ⟨by simpa using hlen, hcur, ?_, fun _ => Nat.le_of_not_lt hc⟩
    have h1 : ((s.workers.set w WorkerStatus.done).filterMap
        workerItem).Perm (inFlight s) := by
      have h := inFlight_set_perm s.workers w WorkerStatus.ready
        WorkerStatus.done hw
      simpa [workerItem, inFlight] using h
    show (s.log ++ (s.workers.set w WorkerStatus.done).filterMap
      workerItem).Perm (List.range s.cursor)
    exact (List.Perm.append_left _ h1).trans hperm

/-- The initial state satisfies the invariant. -/
theorem initState_inv (K N : Nat) : ExecInv K N (initState K N) := by
  refine ⟨List.length_replicate _ _, Nat.zero_le _, ?_, ?_⟩
  · have h : inFlight (initState K N) = [] := by
      rw [inFlight, List.filterMap_eq_nil]
      intro x hx
      rw [(List.mem_replicate.mp hx).2]
      rfl
    show (([] : List Nat) ++ inFlight (initState K N)).Perm (List.range 0)
    rw [h]
    exact List.Perm.refl []
  · intro hmem
    exact absurd (List.mem_replicate.mp hmem).2 (by simp)

/-- Every reachable state satisfies the invariant. -/
theorem reachable_inv {K N : Nat} {s : ExecState}
    (h : Reachable K N s) : ExecInv K N s := by
  induction h with
  | refl => exact initState_inv K N
  | tail _ hstep ih => exact execStep_inv hstep ih

/-- In every reachable terminal state the completion log enumerates the `N`
item indices exactly once each (given limit at least 1, as the contract
requires). -/
theorem terminal_log_perm {K N : Nat} {s : ExecState} (hK : 1 <= K)
    (hreach : Reachable K N s) (hterm : Terminal s) :
    s.log.Perm (List.range N) := by
  obtain ⟨hlen, hcur, hperm, hdone⟩ := reachable_inv hreach
  have hif : inFlight s = [] := by
    rw [inFlight, List.filterMap_eq_nil]
    intro x hx
    rw [hterm x hx]
    rfl
  rw [hif, List.append_nil] at hperm
  rcases Nat.eq_zero_or_pos N with hN | hN
  · subst hN
    rwa [Nat.le_zero.mp hcur] at hperm
  · have hne : s.workers ≠ [] := by
      intro he
      rw [he] at hlen
      simp only [List.length_nil] at hlen
      omega
    obtain ⟨w, hw⟩ := List.exists_mem_of_ne_nil s.workers hne
    have hN2 : N <= s.cursor := hdone ((hterm w hw) ▸ hw)
    rwa [Nat.le_antisymm hcur hN2] at hperm

/-! ## Theorems for the bounded concurrency executor (claim C3) -/

/-- C3: for `N` items under limit `K ≥ 1`, the executor starts exactly
`min K N` workers; in every reachable state at most `min K N` handler
invocations are in flight, and the completed plus in-flight invocations
enumerate the already-taken item indices exactly once each; and in every
reachable terminal state (the executor returns only then) the handler has
been invoked and completed exactly once per item. -/
theorem runWithConcurrency_bounded (K N : Nat) (s : ExecState)
    (hK : 1 ≤ K) (hreach : Reachable K N s) :
    (initState K N).workers.length = min K N ∧
    (inFlight s).length ≤ min K N ∧
    (s.log ++ inFlight s).Perm (List.range s.cursor) ∧
    (Terminal s → s.log.Perm (List.range N)) := by
  obtain ⟨hlen, hcur, hperm, hdone⟩ := reachable_inv hreach
  refine ⟨List.length_replicate _ _, ?_, hperm, fun ht => terminal_log_perm hK hreach ht⟩
  calc (inFlight s).length ≤ s.workers.length := List.length_filterMap_le _ _
    _ = min K N := hlen

/-- A concrete complete run with one worker and one item, used by the C3
witness: take item 0, finish it, retire. -/
theorem reach111 :
    Reachable 1 1 { cursor := 1, workers := [WorkerStatus.done], log := [0] } := by
  have step1 : ExecStep 1 (initState 1 1)
      { cursor := 1, workers := [WorkerStatus.running 0], log := [] } :=
    ExecStep.take (initState 1 1) 0 (by decide) (by decide)
  have step2 : ExecStep 1
      { cursor := 1, workers := [WorkerStatus.running 0], log := [] }
      { cursor := 1, workers := [WorkerStatus.ready], log := [0] } :=
    ExecStep.finish { cursor := 1, workers := [WorkerStatus.running 0], log := [] }
      0 0 (by decide)
  have step3 : ExecStep 1
      { cursor := 1, workers := [WorkerStatus.ready], log := [0] }
      { cursor := 1, workers := [WorkerStatus.done], log := [0] } :=
    ExecStep.retire { cursor := 1, workers := [WorkerStatus.ready], log := [0] }
      0 (by decide) (by decide)
  exact Relation.ReflTransGen.tail
    (Relation.ReflTransGen.tail (Relation.ReflTransGen.single step1) step2) step3

/-- C3 witness: the concrete one-worker one-item run respects the in-flight
bound and, being terminal, completed item 0 exactly once. -/
theorem runWithConcurrency_bounded_witness :
    (inFlight { cursor := 1, workers := [WorkerStatus.done], log := [0] }).length ≤
      min 1 1 ∧
    List.Perm [0] (List.range 1) := by
  have h := runWithConcurrency_bounded 1 1
    { cursor := 1, workers := [WorkerStatus.done], log := [0] } (by decide) reach111
  exact ⟨h.2.1, h.2.2.2 (by decide)⟩

/-! ## Partition lemmas for the bulk report (claim C1) -/

/-- Splitting a `filterMap` into two complementary `filterMap`s: if at every
index of `log` exactly one of `fs`, `ff` produces the value `fi` produces,
the two outputs together are a permutation of the combined output. -/
theorem filterMap_partition_perm {b : Type} (fs ff fi : Nat → Option b)
    (log : List Nat)
    (h : ∀ i ∈ log, (fi i).isSome ∧
      ((fs i = fi i ∧ ff i = none) ∨ (fs i = none ∧ ff i = fi i))) :
    (log.filterMap fs ++ log.filterMap ff).Perm (log.filterMap fi) := by
  induction log with
  | nil => simp
  | cons i rest ih =>
    obtain ⟨hsome, hcase⟩ := h i (List.mem_cons_self i rest)
    have hrest := fun j hj => h j (List.mem_cons_of_mem _ hj)
    obtain ⟨v, hv⟩ := Option.isSome_iff_exists.mp hsome
    rcases hcase with ⟨hfs, hff⟩ | ⟨hfs, hff⟩
    · rw [hv] at hfs
      simp only [List.filterMap_cons, hfs, hff, hv, List.cons_append]
      exact (ih hrest).cons v
    · rw [hv] at hff
      simp only [List.filterMap_cons, hfs, hff, hv]
      exact List.perm_middle.trans ((ih hrest).cons v)

/-- A `filterMap` whose function is `some` on every element of the list keeps
the list's length. -/
theorem filterMap_all_some_length {b : Type} (fi : Nat → Option b)
    (log : List Nat) (h : ∀ i ∈ log, (fi i).isSome) :
    (log.filterMap fi).length = log.length := by
  induction log with
  | nil => rfl
  | cons i rest ih =>
    obtain ⟨v, hv⟩ := Option.isSome_iff_exists.mp (h i (List.mem_cons_self i rest))
    simp [List.filterMap_cons, hv,
      ih (fun j hj => h j (List.mem_cons_of_mem _ hj))]

/-- Collecting `f` of each element by index over `range` recovers `map f`. -/
theorem range_filterMap_getElem {a b : Type} (l : List a) (f : a → b) :
    (List.range l.length).filterMap (fun i => (l[i]?).map f) = l.map f := by
  induction l with
  | nil => rfl
  | cons x t ih =>
    rw [List.length_cons, List.range_succ_eq_map]
    rw [List.filterMap_cons, List.filterMap_map]
    have hcomp : ((fun i => ((x :: t)[i]?).map f) ∘ Nat.succ) =
        (fun i => (t[i]?).map f) := by
      funext i
      simp
    rw [hcomp, ih]
    simp

/-- Partition property of the assembled report, for any completion log that
enumerates the target indices exactly once each. -/
theorem buildBulkResult_partition (targets : List DockerContainerSummary)
    (outcome : DockerContainerSummary → Except String Unit) (log : List Nat)
    (hperm : log.Perm (List.range targets.length)) :
    (buildBulkResult targets outcome log).total = targets.length ∧
    (buildBulkResult targets outcome log).succeeded.length +
      (buildBulkResult targets outcome log).failed.length =
      (buildBulkResult targets outcome log).total ∧
    ((buildBulkResult targets outcome log).succeeded ++
      (buildBulkResult targets outcome log).failed.map (fun f => f.id)).Perm
      (targets.map (fun t => t.Id)) := by
  have hmem : ∀ i ∈ log, i < targets.length := fun i hi =>
    List.mem_range.mp (hperm.mem_iff.mp hi)
  have hsplit : ∀ i ∈ log,
      ((fun i => (targets[i]?).map (fun t => t.Id)) i).isSome ∧
      (((fun i => (targets[i]?).bind (fun target =>
            match outcome target with
            | Except.ok _ => some target.Id
            | Except.error _ => none)) i =
          (fun i => (targets[i]?).map (fun t => t.Id)) i ∧
        (fun i => ((targets[i]?).bind (fun target =>
            match outcome target with
            | Except.ok _ => none
            | Except.error message =>
              some { id := target.Id, name := getContainerName target,
                     error := message : BulkActionFailureDto })).map
          (fun f => f.id)) i = none) ∨
       ((fun i => (targets[i]?).bind (fun target =>
            match outcome target with
            | Except.ok _ => some target.Id
            | Except.error _ => none)) i = none ∧
        (fun i => ((targets[i]?).bind (fun target =>
            match outcome target with
            | Except.ok _ => none
            | Except.error message =>
              some { id := target.Id, name := getContainerName target,
                     error := message : BulkActionFailureDto })).map
          (fun f => f.id)) i =
          (fun i => (targets[i]?).map (fun t => t.Id)) i)) := by
    intro i hi
    have hlt := hmem i hi
    have ht : targets[i]? = some targets[i] := List.getElem?_eq_getElem hlt
    cases ho : outcome targets[i] with
    | ok u => exact ⟨by simp [ht], Or.inl ⟨by simp [ht, ho], by simp [ht, ho]⟩⟩
    | error message => exact ⟨by simp [ht], Or.inr ⟨by simp [ht, ho], by simp [ht, ho]⟩⟩
  have hpart := filterMap_partition_perm _ _ _ log hsplit
  have htail : (log.filterMap (fun i => (targets[i]?).map (fun t => t.Id))).Perm
      (targets.map (fun t => t.Id)) := by
    have h1 := hperm.filterMap (fun i => (targets[i]?).map (fun t => t.Id))
    rw [range_filterMap_getElem] at h1
    exact h1
  have hperm2 : ((buildBulkResult targets outcome log).succeeded ++
      (buildBulkResult targets outcome log).failed.map (fun f => f.id)).Perm
      (targets.map (fun t => t.Id)) := by
    simp only [buildBulkResult]
    rw [List.map_filterMap]
    exact hpart.trans htail
  refine ⟨rfl, ?_, hperm2⟩
  have h2 := hperm2.length_eq
  rw [List.length_append, List.length_map, List.length_map] at h2
  exact h2

/-- C1: for every bulk invocation (any action, inventory-listing outcome,
request, protected set, per-target outcomes) and every completion order the
concurrent executor can produce, the report satisfies
`total = targets.length`, `succeeded.length + failed.length = total`, the ids
in `succeeded` and `failed` together are a permutation of the target ids
(hence, when target ids are distinct, each target id appears in exactly one
of the two lists exactly once); `bulkStart`/`bulkStop`/`bulkRestart` are the
`start`/`stop`/`restart` instances of this orchestration. -/
theorem executeBulkAction_partition (action : BulkAction)
    (listing : Except String (List DockerContainerSummary))
    (input : BulkActionDto) (prot : List String)
    (outcome : BulkAction → DockerContainerSummary → Except String Unit)
    (log : List Nat)
    (hrun : TerminalRun BULK_CONCURRENCY
      (resolveBulkTargets (listContainerSummaries listing) input prot).length log) :
    (executeBulkAction action listing input prot outcome log).total =
      (resolveBulkTargets (listContainerSummaries listing) input prot).length ∧
    (executeBulkAction action listing input prot outcome log).succeeded.length +
      (executeBulkAction action listing input prot outcome log).failed.length =
      (executeBulkAction action listing input prot outcome log).total ∧
    ((executeBulkAction action listing input prot outcome log).succeeded ++
      (executeBulkAction action listing input prot outcome log).failed.map
        (fun f => f.id)).Perm
      ((resolveBulkTargets (listContainerSummaries listing) input prot).map
        (fun t => t.Id)) ∧
    (((resolveBulkTargets (listContainerSummaries listing) input prot).map
        (fun t => t.Id)).Nodup →
      ∀ t ∈ resolveBulkTargets (listContainerSummaries listing) input prot,
        ((executeBulkAction action listing input prot outcome log).succeeded ++
          (executeBulkAction action listing input prot outcome log).failed.map
            (fun f => f.id)).count t.Id = 1) ∧
    bulkStart listing input prot outcome log =
      executeBulkAction BulkAction.start listing input prot outcome log ∧
    bulkStop listing input prot outcome log =
      executeBulkAction BulkAction.stop listing input prot outcome log ∧
    bulkRestart listing input prot outcome log =
      executeBulkAction BulkAction.restart listing input prot outcome log := by
  obtain ⟨s, hreach, hterm, hlog⟩ := hrun
  have hperm : log.Perm (List.range
      (resolveBulkTargets (listContainerSummaries listing) input prot).length) :=
    hlog ▸ terminal_log_perm (by decide) hreach hterm
  obtain ⟨h1, h2, h3⟩ := buildBulkResult_partition
    (resolveBulkTargets (listContainerSummaries listing) input prot)
    (outcome action) log hperm
  refine ⟨h1, h2, h3, ?_, rfl, rfl, rfl⟩
  intro hnodup t htmem
  exact (List.Perm.count_eq h3 t.Id).trans
    (List.count_eq_one_of_mem hnodup (List.mem_map_of_mem _ htmem))

/-- Inventory for the C1 witness: a single container. -/
def invW : List DockerContainerSummary :=
  [{ Id := "c1", Names := some ["/web-1"], Image := "img", State := "running",
     Status := "Up 2 minutes" }]

/-- Request for the C1 witness: include every container. -/
def inputW : BulkActionDto := { ids := none, names := none, includeAll := some true }

/-- Outcomes for the C1 witness: every action fails. -/
def outcomeW : BulkAction → DockerContainerSummary → Except String Unit :=
  fun _ _ => Except.error "connection refused"

/-- A complete run of the five-worker executor over one item. -/
theorem reach511 :
    Reachable 5 1 { cursor := 1, workers := [WorkerStatus.done], log := [0] } := by
  have step1 : ExecStep 1 (initState 5 1)
      { cursor := 1, workers := [WorkerStatus.running 0], log := [] } :=
    ExecStep.take (initState 5 1) 0 (by decide) (by decide)
  have step2 : ExecStep 1
      { cursor := 1, workers := [WorkerStatus.running 0], log := [] }
      { cursor := 1, workers := [WorkerStatus.ready], log := [0] } :=
    ExecStep.finish { cursor := 1, workers := [WorkerStatus.running 0], log := [] }
      0 0 (by decide)
  have step3 : ExecStep 1
      { cursor := 1, workers := [WorkerStatus.ready], log := [0] }
      { cursor := 1, workers := [WorkerStatus.done], log := [0] } :=
    ExecStep.retire { cursor := 1, workers := [WorkerStatus.ready], log := [0] }
      0 (by decide) (by decide)
  exact Relation.ReflTransGen.tail
    (Relation.ReflTransGen.tail (Relation.ReflTransGen.single step1) step2) step3

/-- C1 witness: the one-container all-fail bulk stop, at the completion order
the five-worker executor actually produces. -/
theorem executeBulkAction_partition_witness :
    ((executeBulkAction BulkAction.stop (Except.ok invW) inputW [] outcomeW
        [0]).succeeded ++
      (executeBulkAction BulkAction.stop (Except.ok invW) inputW [] outcomeW
        [0]).failed.map (fun f => f.id)).Perm
      ((resolveBulkTargets (listContainerSummaries (Except.ok invW)) inputW []).map
        (fun t => t.Id)) ∧
    (executeBulkAction BulkAction.stop (Except.ok invW) inputW [] outcomeW
        [0]).succeeded.length +
      (executeBulkAction BulkAction.stop (Except.ok invW) inputW [] outcomeW
        [0]).failed.length =
      (executeBulkAction BulkAction.stop (Except.ok invW) inputW [] outcomeW
        [0]).total := by
  have h := executeBulkAction_partition BulkAction.stop (Except.ok invW) inputW []
    outcomeW [0]
    ⟨{ cursor := 1, workers := [WorkerStatus.done], log := [0] }, reach511,
      by decide, rfl⟩
  exact ⟨h.2.2.1, h.2.1⟩

end KzDashboard
